import Mathlib

/-
Verification of src/functions/Model_functions.py (Ham10000 repository).

Shallow embedding conventions:
* Python floats (loss values) are modelled as rationals (ℚ).
* A mini-batch, as observed by one pass of an epoch loop, is modelled by the
  scalar loss produced by `criterion(outputs, labels).item()` together with
  the per-sample pairs (predicted class, true label) produced by
  `torch.max(outputs.data, 1)` and the label tensor.  The loop bodies of
  `train_epoch`, `validate_epoch` and `test_model` only consume these values.
* Fallible Python behaviour (ZeroDivisionError, NameError, pandas shape
  ValueError, `exit()`) is modelled with `Except` / an explicit constructor.
* `torch.save(model.state_dict(), model_filename)` is modelled by recording
  the current weight version: the weights of the model after k completed
  training passes are identified with the number k, so the checkpoint file
  content is an `Option ℕ` (none = this run has not written the file).
-/

namespace Ham10000

/-- One mini-batch as consumed by an epoch loop: the scalar loss value of the
batch and the list of (predicted label, true label) pairs for its samples. -/
structure Batch where
  loss : ℚ
  samples : List (ℕ × ℕ)
deriving DecidableEq

/-- Number of samples in the batch: `labels.size(0)`. -/
def Batch.size (b : Batch) : ℕ := b.samples.length

/-- Number of correct predictions: `(predicted == labels).sum().item()`. -/
def Batch.correct (b : Batch) : ℕ := b.samples.countP (fun p => p.1 == p.2)

/-- The running totals accumulated by the loop of `train_epoch` /
`validate_epoch`: (loss sum, correct count, sample count). -/
def epochTotals (loader : List Batch) : ℚ × ℕ × ℕ :=
  loader.foldl (fun st b => (st.1 + b.loss, st.2.1 + b.correct, st.2.2 + b.size))
    ((0 : ℚ), (0 : ℕ), (0 : ℕ))

/-- `train_epoch` (Model_functions.py lines 23-45): iterates the loader once,
accumulates loss / correct / total, returns
`(train_loss / len(train_loader), 100 * correct / total)`.
An empty loader or a zero sample count raises ZeroDivisionError. -/
def train_epoch (train_loader : List Batch) : Except String (ℚ × ℚ) :=
  let acc := epochTotals train_loader
  if train_loader.length = 0 then Except.error "ZeroDivisionError: division by zero"
  else if acc.2.2 = 0 then Except.error "ZeroDivisionError: division by zero"
  else Except.ok (acc.1 / (train_loader.length : ℚ), 100 * (acc.2.1 : ℚ) / (acc.2.2 : ℚ))

/-- `validate_epoch` (lines 47-66): same accumulation as `train_epoch`
(the `model.eval()` / `torch.no_grad()` context does not change the
bookkeeping), returning `(valid_loss / len(val_loader), 100 * correct / total)`. -/
def validate_epoch (val_loader : List Batch) : Except String (ℚ × ℚ) :=
  let acc := epochTotals val_loader
  if val_loader.length = 0 then Except.error "ZeroDivisionError: division by zero"
  else if acc.2.2 = 0 then Except.error "ZeroDivisionError: division by zero"
  else Except.ok (acc.1 / (val_loader.length : ℚ), 100 * (acc.2.1 : ℚ) / (acc.2.2 : ℚ))

/-- `test_model` (lines 68-82): accumulates only correct / total and returns
`100 * correct / total`. -/
def test_model (test_loader : List Batch) : Except String ℚ :=
  let acc := epochTotals test_loader
  if acc.2.2 = 0 then Except.error "ZeroDivisionError: division by zero"
  else Except.ok (100 * (acc.2.1 : ℚ) / (acc.2.2 : ℚ))

theorem epochTotals_eq (loader : List Batch) :
    epochTotals loader =
      ((loader.map Batch.loss).sum, (loader.map Batch.correct).sum,
        (loader.map Batch.size).sum) := by
  suffices h : ∀ (a : ℚ) (c t : ℕ),
      loader.foldl (fun st b => (st.1 + b.loss, st.2.1 + b.correct, st.2.2 + b.size)) (a, c, t)
        = (a + (loader.map Batch.loss).sum, c + (loader.map Batch.correct).sum,
            t + (loader.map Batch.size).sum) by
    simpa [epochTotals] using h 0 0 0
  induction loader with
  | nil => intro a c t; simp
  | cons b l ih =>
      intro a c t
      simp [ih, add_assoc]

theorem Batch.correct_le_size (b : Batch) : b.correct ≤ b.size :=
  List.countP_le_length _

theorem correct_sum_le_size_sum (loader : List Batch) :
    (loader.map Batch.correct).sum ≤ (loader.map Batch.size).sum := by
  induction loader with
  | nil => simp
  | cons b l ih =>
      simp only [List.map_cons, List.sum_cons]
      exact Nat.add_le_add b.correct_le_size ih

theorem accuracy_bounds (c t : ℕ) (hc : c ≤ t) (ht : 0 < t) :
    0 ≤ 100 * (c : ℚ) / (t : ℚ) ∧ 100 * (c : ℚ) / (t : ℚ) ≤ 100 := by
  have ht0 : (0 : ℚ) < (t : ℚ) := by exact_mod_cast ht
  constructor
  · positivity
  · rw [div_le_iff₀ ht0]
    have hcq : (c : ℚ) ≤ (t : ℚ) := by exact_mod_cast hc
    nlinarith

theorem size_sum_ne_zero (loader : List Batch) (h1 : loader ≠ [])
    (h2 : ∀ b ∈ loader, b.samples ≠ []) : (loader.map Batch.size).sum ≠ 0 := by
  intro h0
  obtain ⟨b, hb⟩ := List.exists_mem_of_ne_nil loader h1
  have hz : b.size = 0 :=
    List.sum_eq_zero_iff.mp h0 b.size (List.mem_map_of_mem Batch.size hb)
  exact h2 b hb (List.length_eq_zero.mp hz)

/-- C3: for every non-empty loader whose batches each hold at least one sample
(a torch DataLoader never yields an empty batch), `train_epoch` and
`validate_epoch` traverse all batches once, accumulate the batch losses and
correct-prediction counts, and return the accumulated loss divided by the
number of batches together with 100 times the correct count divided by the
number of samples seen. -/
theorem epoch_pass_mean_loss_and_accuracy (loader : List Batch)
    (h1 : loader ≠ []) (h2 : ∀ b ∈ loader, b.samples ≠ []) :
    train_epoch loader =
      Except.ok ((loader.map Batch.loss).sum / (loader.length : ℚ),
        100 * ((loader.map Batch.correct).sum : ℚ) / ((loader.map Batch.size).sum : ℚ)) ∧
    validate_epoch loader =
      Except.ok ((loader.map Batch.loss).sum / (loader.length : ℚ),
        100 * ((loader.map Batch.correct).sum : ℚ) / ((loader.map Batch.size).sum : ℚ)) := by
  have hlen : loader.length ≠ 0 := fun h => h1 (List.length_eq_zero.mp h)
  have hsz := size_sum_ne_zero loader h1 h2
  constructor
  · simp [train_epoch, epochTotals_eq, hlen, hsz]
  · simp [validate_epoch, epochTotals_eq, hlen, hsz]

/-- C3 witness at a concrete two-batch loader. -/
theorem epoch_pass_mean_loss_and_accuracy_witness :
    train_epoch [⟨0, [(0, 0)]⟩, ⟨0, [(1, 2)]⟩] =
      Except.ok (((([⟨0, [(0, 0)]⟩, ⟨0, [(1, 2)]⟩] : List Batch).map Batch.loss).sum / 2),
        100 * ((([⟨0, [(0, 0)]⟩, ⟨0, [(1, 2)]⟩] : List Batch).map Batch.correct).sum : ℚ) / 2) ∧
    validate_epoch [⟨0, [(0, 0)]⟩, ⟨0, [(1, 2)]⟩] =
      Except.ok (((([⟨0, [(0, 0)]⟩, ⟨0, [(1, 2)]⟩] : List Batch).map Batch.loss).sum / 2),
        100 * ((([⟨0, [(0, 0)]⟩, ⟨0, [(1, 2)]⟩] : List Batch).map Batch.correct).sum : ℚ) / 2) := by
  have h := epoch_pass_mean_loss_and_accuracy [⟨0, [(0, 0)]⟩, ⟨0, [(1, 2)]⟩]
    (by decide) (by decide)
  simpa [Batch.size] using h

/-- C4: whenever `train_epoch`, `validate_epoch` or `test_model` returns a
value, the accuracy component lies in the closed interval [0, 100]. -/
theorem accuracy_within_0_100 (loader : List Batch) :
    (∀ l a, train_epoch loader = Except.ok (l, a) → 0 ≤ a ∧ a ≤ 100) ∧
    (∀ l a, validate_epoch loader = Except.ok (l, a) → 0 ≤ a ∧ a ≤ 100) ∧
    (∀ a, test_model loader = Except.ok a → 0 ≤ a ∧ a ≤ 100) := by
  have hc := correct_sum_le_size_sum loader
  refine ⟨?_, ?_, ?_⟩
  · intro l a h
    rw [train_epoch, epochTotals_eq] at h
    by_cases hlen : loader.length = 0
    · simp [hlen] at h
    · by_cases hsz : (loader.map Batch.size).sum = 0
      · simp [hlen, hsz] at h
      · simp only [hlen, hsz, if_false] at h
        obtain ⟨-, ha⟩ := Prod.mk.injEq .. ▸ Except.ok.injEq .. ▸ h
        exact ha ▸ accuracy_bounds _ _ hc (Nat.pos_of_ne_zero hsz)
  · intro l a h
    rw [validate_epoch, epochTotals_eq] at h
    by_cases hlen : loader.length = 0
    · simp [hlen] at h
    · by_cases hsz : (loader.map Batch.size).sum = 0
      · simp [hlen, hsz] at h
      · simp only [hlen, hsz, if_false] at h
        obtain ⟨-, ha⟩ := Prod.mk.injEq .. ▸ Except.ok.injEq .. ▸ h
        exact ha ▸ accuracy_bounds _ _ hc (Nat.pos_of_ne_zero hsz)
  · intro a h
    rw [test_model, epochTotals_eq] at h
    by_cases hsz : (loader.map Batch.size).sum = 0
    · simp [hsz] at h
    · simp only [hsz, if_false] at h
      have ha := (Except.ok.injEq .. ▸ h).symm
      exact ha ▸ accuracy_bounds _ _ hc (Nat.pos_of_ne_zero hsz)

/-- C4 witness at a concrete one-batch loader. -/
theorem accuracy_within_0_100_witness :
    train_epoch [⟨0, [(0, 0)]⟩] = Except.ok (0, 100) ∧
      0 ≤ (100 : ℚ) ∧ (100 : ℚ) ≤ 100 := by
  have he : train_epoch [⟨0, [(0, 0)]⟩] = Except.ok (0, 100) := by
    simp [train_epoch, epochTotals, Batch.correct, Batch.size]
  exact ⟨he, (accuracy_within_0_100 [⟨0, [(0, 0)]⟩]).1 0 100 he⟩

/-
The early-stopping loop of `train_and_validate_model` (lines 84-122).

The loop state keeps the local variables that the claims are about.  The
per-epoch training and validation passes are abstracted by a single driver
function `vloss : ℕ → ℚ`: since the model is mutated by each executed
training pass, the validation loss produced by the (k+1)-st executed pass is
a function of k, the number of passes completed before it.  `trainPasses`
counts executed `train_epoch`/`validate_epoch` call pairs; it is also the
weight version of the model (the weights after k passes are identified with
k), and the lists `total_loss_train`, `total_acc_train`, `total_acc_val` of
the source grow in the same guarded block, one entry per executed pass.
`checkpoint` is the content of the file `model_filename`: `some k` after
`torch.save` has stored the weights of version k, `none` while this run has
not written the file.  Reading the local `valid_loss` before the first
executed pass raises a Python NameError, so `valid_loss` is an `Option`
and the epoch step is fallible.
-/

/-- The local state of the epoch loop in `train_and_validate_model`. -/
structure TrainState where
  min_valid_loss : Option ℚ
  valid_loss : Option ℚ
  stopping_ct : ℤ
  trainPasses : ℕ
  checkpoint : Option ℕ
  total_loss_val : List ℚ
  epochsRun : ℕ
deriving DecidableEq

/-- The NameError raised when line 107 reads `valid_loss` before any epoch
assigned it, together with the number of training passes executed so far. -/
structure NameError where
  msg : String
  trainPassesAtError : ℕ
deriving DecidableEq

/-- The comparison `min_valid_loss > valid_loss` of line 107, where
`min_valid_loss` starts as `np.inf` (modelled by `none`): infinity exceeds
every float, and otherwise the comparison is ordinary `>`. -/
def infGt (m : Option ℚ) (v : ℚ) : Bool :=
  match m with
  | none => true
  | some x => decide (v < x)

/-- One iteration of the loop body (lines 94-114): when the patience budget
is not exhausted, run the training and validation passes and append the
metrics; then compare the (possibly stale) `valid_loss` against
`min_valid_loss`, saving the weights and resetting the countdown on strict
improvement and incrementing the countdown otherwise. -/
def epochStep (patience : ℤ) (vloss : ℕ → ℚ) (s : TrainState) : Except NameError TrainState :=
  let s1 :=
    if s.stopping_ct < patience then
      { s with valid_loss := some (vloss s.trainPasses)
             , trainPasses := s.trainPasses + 1
             , total_loss_val := s.total_loss_val ++ [vloss s.trainPasses] }
    else s
  match s1.valid_loss with
  | none => Except.error ⟨"NameError: name valid_loss is not defined", s1.trainPasses⟩
  | some vl =>
      if infGt s1.min_valid_loss vl then
        Except.ok { s1 with min_valid_loss := some vl
                          , checkpoint := some s1.trainPasses
                          , stopping_ct := 0
                          , epochsRun := s1.epochsRun + 1 }
      else
        Except.ok { s1 with stopping_ct := s1.stopping_ct + 1
                          , epochsRun := s1.epochsRun + 1 }

/-- The state at line 91: `min_valid_loss = np.inf`, empty metric lists,
`stopping_ct = 0`, `valid_loss` not yet assigned, checkpoint not written. -/
def initState : TrainState := ⟨none, none, 0, 0, none, [], 0⟩

/-- `for epoch in tqdm(range(epochs))`: run the loop body `n` times,
propagating a NameError. -/
def runEpochs (patience : ℤ) (vloss : ℕ → ℚ) : ℕ → TrainState → Except NameError TrainState
  | 0, s => Except.ok s
  | n + 1, s =>
      match epochStep patience vloss s with
      | Except.error e => Except.error e
      | Except.ok s1 => runEpochs patience vloss n s1

/-- `train_and_validate_model` (lines 84-122) as a function of the patience
budget, the epoch count and the validation-loss driver. -/
def train_and_validate_model (patience : ℤ) (epochs : ℕ) (vloss : ℕ → ℚ) :
    Except NameError TrainState :=
  runEpochs patience vloss epochs initState

/-- The checkpoint `c` holds the weight version whose validation loss is the
first minimum of the observed losses `lv`: the losses split as
`pre ++ m :: post` with the save made at pass `pre.length + 1`, every loss
before it strictly above `m` and every loss after it at least `m`. -/
def IsBestCheckpoint (lv : List ℚ) (m : ℚ) (c : ℕ) : Prop :=
  ∃ pre post, lv = pre ++ m :: post ∧ c = pre.length + 1 ∧
    (∀ x ∈ pre, m < x) ∧ (∀ x ∈ post, m ≤ x)

theorem IsBestCheckpoint.min_le {lv : List ℚ} {m : ℚ} {c : ℕ}
    (h : IsBestCheckpoint lv m c) : ∀ x ∈ lv, m ≤ x := by
  obtain ⟨pre, post, rfl, -, hpre, hpost⟩ := h
  intro x hx
  rcases List.mem_append.mp hx with hx | hx
  · exact le_of_lt (hpre x hx)
  · rcases List.mem_cons.mp hx with rfl | hx
    · exact le_rfl
    · exact hpost x hx

/-- The loop invariant: `trainPasses` counts the observed losses, and either
no pass has executed yet (initial state), or `valid_loss` holds the last
observed loss, `min_valid_loss` its running minimum, and the checkpoint the
first pass achieving that minimum. -/
def Inv (s : TrainState) : Prop :=
  s.trainPasses = s.total_loss_val.length ∧
  ((s.valid_loss = none ∧ s.min_valid_loss = none ∧ s.total_loss_val = [] ∧
      s.checkpoint = none ∧ s.stopping_ct = 0) ∨
   (∃ vl m c, s.valid_loss = some vl ∧ s.min_valid_loss = some m ∧
      s.checkpoint = some c ∧ m ≤ vl ∧ IsBestCheckpoint s.total_loss_val m c))

theorem inv_initState : Inv initState := by
  constructor
  · rfl
  · exact Or.inl ⟨rfl, rfl, rfl, rfl, rfl⟩

theorem epochStep_train_save (patience : ℤ) (vloss : ℕ → ℚ) (s : TrainState)
    (h1 : s.stopping_ct < patience)
    (h2 : infGt s.min_valid_loss (vloss s.trainPasses) = true) :
    epochStep patience vloss s = Except.ok
      { s with valid_loss := some (vloss s.trainPasses)
             , trainPasses := s.trainPasses + 1
             , total_loss_val := s.total_loss_val ++ [vloss s.trainPasses]
             , min_valid_loss := some (vloss s.trainPasses)
             , checkpoint := some (s.trainPasses + 1)
             , stopping_ct := 0
             , epochsRun := s.epochsRun + 1 } := by
  simp [epochStep, h1, h2]

theorem epochStep_train_nosave (patience : ℤ) (vloss : ℕ → ℚ) (s : TrainState)
    (h1 : s.stopping_ct < patience)
    (h2 : infGt s.min_valid_loss (vloss s.trainPasses) = false) :
    epochStep patience vloss s = Except.ok
      { s with valid_loss := some (vloss s.trainPasses)
             , trainPasses := s.trainPasses + 1
             , total_loss_val := s.total_loss_val ++ [vloss s.trainPasses]
             , stopping_ct := s.stopping_ct + 1
             , epochsRun := s.epochsRun + 1 } := by
  simp [epochStep, h1, h2]

theorem epochStep_stalled (patience : ℤ) (vloss : ℕ → ℚ) (s : TrainState) (vl : ℚ)
    (h1 : ¬s.stopping_ct < patience) (h2 : s.valid_loss = some vl)
    (h3 : infGt s.min_valid_loss vl = false) :
    epochStep patience vloss s = Except.ok
      { s with stopping_ct := s.stopping_ct + 1, epochsRun := s.epochsRun + 1 } := by
  simp [epochStep, h1, h2, h3]

theorem epochStep_stalled_save (patience : ℤ) (vloss : ℕ → ℚ) (s : TrainState) (vl : ℚ)
    (h1 : ¬s.stopping_ct < patience) (h2 : s.valid_loss = some vl)
    (h3 : infGt s.min_valid_loss vl = true) :
    epochStep patience vloss s = Except.ok
      { s with min_valid_loss := some vl, checkpoint := some s.trainPasses
             , stopping_ct := 0, epochsRun := s.epochsRun + 1 } := by
  simp [epochStep, h1, h2, h3]

theorem epochStep_name_error (patience : ℤ) (vloss : ℕ → ℚ) (s : TrainState)
    (h1 : ¬s.stopping_ct < patience) (h2 : s.valid_loss = none) :
    epochStep patience vloss s =
      Except.error ⟨"NameError: name valid_loss is not defined", s.trainPasses⟩ := by
  simp [epochStep, h1, h2]

/-- The strengthened invariant holding after at least one executed pass. -/
def Inv2 (s : TrainState) : Prop :=
  s.trainPasses = s.total_loss_val.length ∧
  ∃ vl m c, s.valid_loss = some vl ∧ s.min_valid_loss = some m ∧
    s.checkpoint = some c ∧ m ≤ vl ∧ IsBestCheckpoint s.total_loss_val m c

theorem Inv2.inv {s : TrainState} (h : Inv2 s) : Inv s := ⟨h.1, Or.inr h.2⟩

theorem step_inv (patience : ℤ) (vloss : ℕ → ℚ) (s : TrainState)
    (hp : 1 ≤ patience) (hs : Inv s) :
    ∃ s1, epochStep patience vloss s = Except.ok s1 ∧ Inv2 s1 ∧
      s1.epochsRun = s.epochsRun + 1 ∧ s1.trainPasses ≤ s.trainPasses + 1 := by
  obtain ⟨hlen, hcase⟩ := hs
  by_cases hct : s.stopping_ct < patience
  · by_cases hsave : infGt s.min_valid_loss (vloss s.trainPasses) = true
    · refine ⟨_, epochStep_train_save patience vloss s hct hsave, ⟨?_, ?_⟩, rfl, le_refl _⟩
      · simp [hlen]
      · refine ⟨vloss s.trainPasses, vloss s.trainPasses, s.trainPasses + 1,
          rfl, rfl, rfl, le_rfl, s.total_loss_val, [], by simp, by rw [hlen], ?_, by simp⟩
        intro x hx
        rcases hcase with ⟨-, -, hlv, -, -⟩ | ⟨vl0, m, c, -, hm, -, -, hbest⟩
        · rw [hlv] at hx; cases hx
        · rw [hm] at hsave
          have hvm : vloss s.trainPasses < m := by simpa [infGt] using hsave
          exact lt_of_lt_of_le hvm (hbest.min_le x hx)
    · have hsave' : infGt s.min_valid_loss (vloss s.trainPasses) = false :=
        Bool.eq_false_iff.mpr hsave
      rcases hcase with ⟨-, hm, -, -, -⟩ | ⟨vl0, m, c, -, hm, hck, -, hbest⟩
      · rw [hm] at hsave'; simp [infGt] at hsave'
      · refine ⟨_, epochStep_train_nosave patience vloss s hct hsave', ⟨?_, ?_⟩, rfl, le_refl _⟩
        · simp [hlen]
        · rw [hm] at hsave'
          have hmv : m ≤ vloss s.trainPasses := by
            have h : ¬vloss s.trainPasses < m := by simpa [infGt] using hsave'
            exact le_of_not_lt h
          refine ⟨vloss s.trainPasses, m, c, rfl, hm, hck, hmv, ?_⟩
          obtain ⟨pre, post, hsplit, hc, hpre, hpost⟩ := hbest
          refine ⟨pre, post ++ [vloss s.trainPasses], ?_, hc, hpre, ?_⟩
          · rw [hsplit]; simp
          · intro x hx
            rcases List.mem_append.mp hx with hx | hx
            · exact hpost x hx
            · rw [List.mem_singleton.mp hx]; exact hmv
  · rcases hcase with ⟨-, -, -, -, hsc⟩ | ⟨vl0, m, c, hv, hm, hck, hmle, hbest⟩
    · exact absurd (hsc ▸ lt_of_lt_of_le zero_lt_one hp) hct
    · have hng : infGt s.min_valid_loss vl0 = false := by
        rw [hm]; simp [infGt, not_lt.mpr hmle]
      exact ⟨_, epochStep_stalled patience vloss s vl0 hct hv hng,
        ⟨hlen, vl0, m, c, hv, hm, hck, hmle, hbest⟩, rfl, Nat.le_succ _⟩

theorem run_inv2 (patience : ℤ) (vloss : ℕ → ℚ) (hp : 1 ≤ patience) :
    ∀ (n : ℕ) (s : TrainState), Inv2 s →
      ∃ s1, runEpochs patience vloss n s = Except.ok s1 ∧ Inv2 s1 ∧
        s1.epochsRun = s.epochsRun + n ∧ s1.trainPasses ≤ s.trainPasses + n := by
  intro n
  induction n with
  | zero => exact fun s hs => ⟨s, rfl, hs, rfl, le_refl _⟩
  | succ n ih =>
      intro s hs
      obtain ⟨s1, hstep, hinv, her, htp⟩ := step_inv patience vloss s hp hs.inv
      obtain ⟨s2, hrun, hinv2, her2, htp2⟩ := ih s1 hinv
      refine ⟨s2, ?_, hinv2, by omega, by omega⟩
      simp only [runEpochs, hstep]
      exact hrun

theorem step_initState (patience : ℤ) (vloss : ℕ → ℚ) (hp : 1 ≤ patience) :
    epochStep patience vloss initState =
      Except.ok ⟨some (vloss 0), some (vloss 0), 0, 1, some 1, [vloss 0], 1⟩ := by
  have h1 : initState.stopping_ct < patience := lt_of_lt_of_le zero_lt_one hp
  have h := epochStep_train_save patience vloss initState h1 rfl
  simpa [initState] using h

theorem inv2_after_first (vloss : ℕ → ℚ) :
    Inv2 ⟨some (vloss 0), some (vloss 0), 0, 1, some 1, [vloss 0], 1⟩ :=
  ⟨rfl, vloss 0, vloss 0, 1, rfl, rfl, rfl, le_rfl, [], [], rfl, rfl,
    fun x hx => absurd hx (List.not_mem_nil x), fun x hx => absurd hx (List.not_mem_nil x)⟩

theorem run_stalled (patience : ℤ) (vloss : ℕ → ℚ) :
    ∀ (n : ℕ) (s : TrainState), Inv2 s → patience ≤ s.stopping_ct →
      runEpochs patience vloss n s =
        Except.ok { s with stopping_ct := s.stopping_ct + n, epochsRun := s.epochsRun + n } := by
  intro n
  induction n with
  | zero =>
      intro s _ _
      show Except.ok s = _
      congr 1
      cases s
      simp
  | succ n ih =>
      intro s hs hct
      obtain ⟨hlen, vl, m, c, hv, hm, hc, hmle, hbest⟩ := hs
      have hng : infGt s.min_valid_loss vl = false := by
        rw [hm]; simp [infGt, not_lt.mpr hmle]
      have hstep := epochStep_stalled patience vloss s vl (not_lt.mpr hct) hv hng
      have hs' : Inv2 { s with stopping_ct := s.stopping_ct + 1, epochsRun := s.epochsRun + 1 } :=
        ⟨hlen, vl, m, c, hv, hm, hc, hmle, hbest⟩
      have hct' : patience ≤
          ({ s with stopping_ct := s.stopping_ct + 1, epochsRun := s.epochsRun + 1 }
            : TrainState).stopping_ct := by
        simp only []
        omega
      simp only [runEpochs, hstep]
      rw [ih _ hs' hct']
      congr 1
      cases s
      simp only [TrainState.mk.injEq]
      refine ⟨trivial, trivial, by push_cast; ring, trivial, trivial, trivial, by omega⟩

/-- C1: for every run with `epochs >= 1` and `patience >= 1`, the final
checkpoint holds the weights of the first pass whose validation loss is the
minimum of all observed validation losses (`IsBestCheckpoint`, which also
gives `min_valid_loss = that minimum`), and within an executed epoch a save
together with a countdown reset happens exactly when the new validation loss
is strictly below the running minimum, the countdown advancing by one
otherwise. -/
theorem checkpoint_holds_min_valid_loss_weights (patience : ℤ) (epochs : ℕ) (vloss : ℕ → ℚ)
    (hp : 1 ≤ patience) (he : 1 ≤ epochs) :
    (∃ s, train_and_validate_model patience epochs vloss = Except.ok s ∧
       ∃ m c, s.min_valid_loss = some m ∧ s.checkpoint = some c ∧
         IsBestCheckpoint s.total_loss_val m c ∧ ∀ x ∈ s.total_loss_val, m ≤ x) ∧
    (∀ t t1, t.stopping_ct < patience → epochStep patience vloss t = Except.ok t1 →
       (infGt t.min_valid_loss (vloss t.trainPasses) = true →
          t1.checkpoint = some (t.trainPasses + 1) ∧ t1.stopping_ct = 0 ∧
          t1.min_valid_loss = some (vloss t.trainPasses)) ∧
       (infGt t.min_valid_loss (vloss t.trainPasses) = false →
          t1.checkpoint = t.checkpoint ∧ t1.stopping_ct = t.stopping_ct + 1 ∧
          t1.min_valid_loss = t.min_valid_loss)) := by
  constructor
  · obtain ⟨k, rfl⟩ : ∃ k, epochs = k + 1 := ⟨epochs - 1, by omega⟩
    obtain ⟨s2, hrun, hinv, -, -⟩ :=
      run_inv2 patience vloss hp k _ (inv2_after_first vloss)
    refine ⟨s2, ?_, ?_⟩
    · show runEpochs patience vloss (k + 1) initState = Except.ok s2
      simp only [runEpochs, step_initState patience vloss hp]
      exact hrun
    · obtain ⟨-, vl, m, c, -, hm, hc, -, hbest⟩ := hinv
      exact ⟨m, c, hm, hc, hbest, hbest.min_le⟩
  · intro t t1 hct hstep
    constructor
    · intro hsave
      rw [epochStep_train_save patience vloss t hct hsave] at hstep
      injection hstep with h
      subst h
      exact ⟨rfl, rfl, rfl⟩
    · intro hns
      rw [epochStep_train_nosave patience vloss t hct hns] at hstep
      injection hstep with h
      subst h
      exact ⟨rfl, rfl, rfl⟩

/-- C1 witness at patience 1, epochs 2, validation losses 2 then 1. -/
theorem checkpoint_holds_min_valid_loss_weights_witness :
    (∃ s, train_and_validate_model 1 2 (fun n => if n = 0 then (2 : ℚ) else 1) =
        Except.ok s ∧
       ∃ m c, s.min_valid_loss = some m ∧ s.checkpoint = some c ∧
         IsBestCheckpoint s.total_loss_val m c ∧ ∀ x ∈ s.total_loss_val, m ≤ x) ∧
    (∀ t t1, t.stopping_ct < 1 →
       epochStep 1 (fun n => if n = 0 then (2 : ℚ) else 1) t = Except.ok t1 →
       (infGt t.min_valid_loss ((fun n => if n = 0 then (2 : ℚ) else 1) t.trainPasses) = true →
          t1.checkpoint = some (t.trainPasses + 1) ∧ t1.stopping_ct = 0 ∧
          t1.min_valid_loss = some ((fun n => if n = 0 then (2 : ℚ) else 1) t.trainPasses)) ∧
       (infGt t.min_valid_loss ((fun n => if n = 0 then (2 : ℚ) else 1) t.trainPasses) = false →
          t1.checkpoint = t.checkpoint ∧ t1.stopping_ct = t.stopping_ct + 1 ∧
          t1.min_valid_loss = t.min_valid_loss)) :=
  checkpoint_holds_min_valid_loss_weights 1 2 (fun n => if n = 0 then (2 : ℚ) else 1)
    (by decide) (by decide)

/-- C2: with `patience >= 1` the epoch loop runs exactly `epochs` iterations
(the final `epochsRun` equals `epochs` while the executed pass count is only
bounded by it), and an iteration whose patience budget is exhausted leaves
the pass count, the metric lists and `valid_loss` unchanged while still
counting as a loop iteration. -/
theorem epoch_loop_runs_all_epochs (patience : ℤ) (epochs : ℕ) (vloss : ℕ → ℚ)
    (hp : 1 ≤ patience) (he : 1 ≤ epochs) :
    (∃ s, train_and_validate_model patience epochs vloss = Except.ok s ∧
       s.epochsRun = epochs ∧ s.trainPasses ≤ epochs) ∧
    (∀ t t1, patience ≤ t.stopping_ct → epochStep patience vloss t = Except.ok t1 →
       t1.trainPasses = t.trainPasses ∧ t1.total_loss_val = t.total_loss_val ∧
       t1.valid_loss = t.valid_loss ∧ t1.epochsRun = t.epochsRun + 1) := by
  constructor
  · obtain ⟨k, rfl⟩ : ∃ k, epochs = k + 1 := ⟨epochs - 1, by omega⟩
    obtain ⟨s2, hrun, -, her, htp⟩ :=
      run_inv2 patience vloss hp k _ (inv2_after_first vloss)
    have her1 : s2.epochsRun = 1 + k := by simpa using her
    have htp1 : s2.trainPasses ≤ 1 + k := by simpa using htp
    refine ⟨s2, ?_, by omega, by omega⟩
    show runEpochs patience vloss (k + 1) initState = Except.ok s2
    simp only [runEpochs, step_initState patience vloss hp]
    exact hrun
  · intro t t1 hct hstep
    have hng : ¬t.stopping_ct < patience := not_lt.mpr hct
    cases hv : t.valid_loss with
    | none =>
        rw [epochStep_name_error patience vloss t hng hv] at hstep
        cases hstep
    | some vl =>
        cases hgt : infGt t.min_valid_loss vl with
        | true =>
            rw [epochStep_stalled_save patience vloss t vl hng hv hgt] at hstep
            injection hstep with h
            subst h
            exact ⟨rfl, rfl, hv, rfl⟩
        | false =>
            rw [epochStep_stalled patience vloss t vl hng hv hgt] at hstep
            injection hstep with h
            subst h
            exact ⟨rfl, rfl, hv, rfl⟩

/-- C2 witness at patience 1, epochs 3 and constant validation loss. -/
theorem epoch_loop_runs_all_epochs_witness :
    (∃ s, train_and_validate_model 1 3 (fun _ => (1 : ℚ)) = Except.ok s ∧
       s.epochsRun = 3 ∧ s.trainPasses ≤ 3) ∧
    (∀ t t1, (1 : ℤ) ≤ t.stopping_ct → epochStep 1 (fun _ => (1 : ℚ)) t = Except.ok t1 →
       t1.trainPasses = t.trainPasses ∧ t1.total_loss_val = t.total_loss_val ∧
       t1.valid_loss = t.valid_loss ∧ t1.epochsRun = t.epochsRun + 1) :=
  epoch_loop_runs_all_epochs 1 3 (fun _ => (1 : ℚ)) (by decide) (by decide)

/-- C8: once a run with `patience >= 1` reaches a state whose counter is at
least the patience budget, every further epoch leaves the pass count, the
checkpoint, the metric lists and the running minimum untouched and only
increments the counter (and the iteration count): the counter never resets
again and no training pass, validation pass or save occurs. -/
theorem patience_exhausted_is_absorbing (patience : ℤ) (vloss : ℕ → ℚ) (k n : ℕ)
    (s : TrainState) (hp : 1 ≤ patience)
    (hk : runEpochs patience vloss k initState = Except.ok s)
    (hct : patience ≤ s.stopping_ct) :
    runEpochs patience vloss n s =
      Except.ok { s with stopping_ct := s.stopping_ct + n, epochsRun := s.epochsRun + n } := by
  cases k with
  | zero =>
      exfalso
      have h0 : initState = s := by
        have h := hk
        simp only [runEpochs] at h
        injection h
      rw [← h0] at hct
      simp only [initState] at hct
      omega
  | succ k =>
      obtain ⟨s1, hstep, hinv2, -, -⟩ := step_inv patience vloss initState hp inv_initState
      simp only [runEpochs, hstep] at hk
      obtain ⟨s2, hrun, hinv, -, -⟩ := run_inv2 patience vloss hp k s1 hinv2
      rw [hrun] at hk
      injection hk with h
      subst h
      exact run_stalled patience vloss n s2 hinv hct

/-- C8 witness: after two epochs with patience 1 and constant loss the
counter equals the budget, and three further epochs only bump the counter. -/
theorem patience_exhausted_is_absorbing_witness :
    runEpochs 1 (fun _ => (1 : ℚ)) 2 initState =
      Except.ok ⟨some 1, some 1, 1, 2, some 1, [1, 1], 2⟩ ∧
    (1 : ℤ) ≤ (⟨some 1, some 1, 1, 2, some 1, [1, 1], 2⟩ : TrainState).stopping_ct ∧
    runEpochs 1 (fun _ => (1 : ℚ)) 3 ⟨some 1, some 1, 1, 2, some 1, [1, 1], 2⟩ =
      Except.ok { (⟨some 1, some 1, 1, 2, some 1, [1, 1], 2⟩ : TrainState) with
                    stopping_ct := (⟨some 1, some 1, 1, 2, some 1, [1, 1], 2⟩
                      : TrainState).stopping_ct + (3 : ℕ)
                  , epochsRun := (⟨some 1, some 1, 1, 2, some 1, [1, 1], 2⟩
                      : TrainState).epochsRun + 3 } := by
  have h2 : runEpochs 1 (fun _ => (1 : ℚ)) 2 initState =
      Except.ok ⟨some 1, some 1, 1, 2, some 1, [1, 1], 2⟩ := by
    simp [runEpochs, epochStep, initState, infGt]
  exact ⟨h2, by decide,
    patience_exhausted_is_absorbing 1 (fun _ => (1 : ℚ)) 2 3
      ⟨some 1, some 1, 1, 2, some 1, [1, 1], 2⟩ (by decide) h2 (by decide)⟩

/-- C9: with `epochs >= 1` and `patience <= 0` the guard of the first epoch
is already false, so line 107 reads the never-assigned local `valid_loss`
and the run fails with a NameError before any training pass executed. -/
theorem nonpositive_patience_name_error (patience : ℤ) (epochs : ℕ) (vloss : ℕ → ℚ)
    (hp : patience ≤ 0) (he : 1 ≤ epochs) :
    train_and_validate_model patience epochs vloss =
      Except.error ⟨"NameError: name valid_loss is not defined", 0⟩ := by
  obtain ⟨k, rfl⟩ : ∃ k, epochs = k + 1 := ⟨epochs - 1, by omega⟩
  have h1 : ¬initState.stopping_ct < patience := by
    simp only [initState]
    omega
  have h := epochStep_name_error patience vloss initState h1 rfl
  show runEpochs patience vloss (k + 1) initState = _
  simp only [runEpochs, h]
  rfl

/-- C9 witness at patience 0 and a single epoch. -/
theorem nonpositive_patience_name_error_witness :
    train_and_validate_model 0 1 (fun _ => (1 : ℚ)) =
      Except.error ⟨"NameError: name valid_loss is not defined", 0⟩ :=
  nonpositive_patience_name_error 0 1 (fun _ => (1 : ℚ)) (by decide) (by decide)

/-- C10: the checkpoint file is not written by the run before the loop, the
very first epoch always saves (the first validation loss beats the initial
infinity), and a run with `epochs >= 1` and `patience >= 1` ends with the
checkpoint written during this call, so the terminal load reads a file this
call produced. -/
theorem first_epoch_always_saves (patience : ℤ) (epochs : ℕ) (vloss : ℕ → ℚ)
    (hp : 1 ≤ patience) (he : 1 ≤ epochs) :
    initState.checkpoint = none ∧
    (∃ s1, epochStep patience vloss initState = Except.ok s1 ∧
       s1.checkpoint = some 1 ∧ s1.trainPasses = 1) ∧
    (∃ s, train_and_validate_model patience epochs vloss = Except.ok s ∧
       s.checkpoint.isSome = true) := by
  refine ⟨rfl, ⟨_, step_initState patience vloss hp, rfl, rfl⟩, ?_⟩
  obtain ⟨k, rfl⟩ : ∃ k, epochs = k + 1 := ⟨epochs - 1, by omega⟩
  obtain ⟨s2, hrun, hinv, -, -⟩ := run_inv2 patience vloss hp k _ (inv2_after_first vloss)
  refine ⟨s2, ?_, ?_⟩
  · show runEpochs patience vloss (k + 1) initState = Except.ok s2
    simp only [runEpochs, step_initState patience vloss hp]
    exact hrun
  · obtain ⟨-, vl, m, c, -, -, hc, -, -⟩ := hinv
    simp [hc]

/-- C10 witness at patience 1 and a single epoch. -/
theorem first_epoch_always_saves_witness :
    initState.checkpoint = none ∧
    (∃ s1, epochStep 1 (fun _ => (1 : ℚ)) initState = Except.ok s1 ∧
       s1.checkpoint = some 1 ∧ s1.trainPasses = 1) ∧
    (∃ s, train_and_validate_model 1 1 (fun _ => (1 : ℚ)) = Except.ok s ∧
       s.checkpoint.isSome = true) :=
  first_epoch_always_saves 1 1 (fun _ => (1 : ℚ)) (by decide) (by decide)

/-
`initialise_model` (lines 133-159) with its helper
`set_parameter_requires_grad` (lines 127-130). A torchvision model is
modelled by the `requires_grad` flags of its backbone parameter tensors and
by its final linear layer (`fc` for ResNet-50, `classifier` for
DenseNet-121). The backbone parameter-tensor count is a modelling parameter
of the external library; fresh layers are created with
`requires_grad = true`, the torchvision default.
-/

/-- An `nn.Linear` layer: its shape and the `requires_grad` flag shared by
its weight and bias. -/
structure LinearLayer where
  in_features : ℕ
  out_features : ℕ
  requires_grad : Bool
deriving DecidableEq

/-- A torchvision classification model: backbone parameter flags plus the
final classification layer. -/
structure TorchModel where
  backboneParams : List Bool
  head : LinearLayer
deriving DecidableEq

/-- `models.resnet50(pretrained=...)`: a fresh model, all parameters
trainable, whose `fc` layer has `in_features = 2048` (and the ImageNet
output width 1000). -/
def resnet50 (use_pretrained : Bool) (nparams : ℕ) : TorchModel :=
  { backboneParams := List.replicate nparams true, head := ⟨2048, 1000, true⟩ }

/-- `models.densenet121(pretrained=...)`: a fresh model, all parameters
trainable, whose `classifier` layer has `in_features = 1024`. -/
def densenet121 (use_pretrained : Bool) (nparams : ℕ) : TorchModel :=
  { backboneParams := List.replicate nparams true, head := ⟨1024, 1000, true⟩ }

/-- `set_parameter_requires_grad` (lines 127-130): when feature extracting,
set `requires_grad = False` on every parameter of the model, the current
final layer included; otherwise leave the model untouched. -/
def set_parameter_requires_grad (model : TorchModel) (feature_extracting : Bool) : TorchModel :=
  if feature_extracting then
    { backboneParams := model.backboneParams.map (fun _ => false)
    , head := { model.head with requires_grad := false } }
  else model

/-- The outcome of `initialise_model`: either a constructed model or the
unconditional `exit()` of line 158 after the printed message. -/
inductive InitResult where
  | model (m : TorchModel)
  | exitProcess (msg : String)
deriving DecidableEq

/-- `initialise_model` (lines 133-159): select the backbone by name,
optionally freeze its parameters, and replace the final layer by a fresh
`nn.Linear(num_ftrs, num_classes)`; any other name prints a message and
terminates the process. (The printed message is reproduced without its
quote characters.) -/
def initialise_model (model_name : String) (num_classes : ℕ) (feature_extract : Bool)
    (use_pretrained : Bool) (nparams : ℕ) : InitResult :=
  if model_name = "resnet_pret" then
    let model_ft := resnet50 use_pretrained nparams
    let model_ft := set_parameter_requires_grad model_ft feature_extract
    let num_ftrs := model_ft.head.in_features
    let model_ft := { model_ft with head := ⟨num_ftrs, num_classes, true⟩ }
    InitResult.model model_ft
  else if model_name = "densenet_pret" then
    let model_ft := densenet121 use_pretrained nparams
    let model_ft := set_parameter_requires_grad model_ft feature_extract
    let num_ftrs := model_ft.head.in_features
    let model_ft := { model_ft with head := ⟨num_ftrs, num_classes, true⟩ }
    InitResult.model model_ft
  else
    InitResult.exitProcess "Invalid model name, choose between resnet_pret, densenet_pret."

/-- C5: every model name other than the two recognized ones terminates the
process before any model is constructed, while the two recognized names
yield a model and do not terminate. -/
theorem unrecognized_model_name_exits (model_name : String) (num_classes : ℕ)
    (feature_extract use_pretrained : Bool) (nparams : ℕ) :
    (model_name ≠ "resnet_pret" → model_name ≠ "densenet_pret" →
       initialise_model model_name num_classes feature_extract use_pretrained nparams =
         InitResult.exitProcess
           "Invalid model name, choose between resnet_pret, densenet_pret.") ∧
    (model_name = "resnet_pret" ∨ model_name = "densenet_pret" →
       ∃ m, initialise_model model_name num_classes feature_extract use_pretrained nparams =
         InitResult.model m) := by
  constructor
  · intro h1 h2
    simp [initialise_model, h1, h2]
  · rintro (rfl | rfl)
    · cases feature_extract
      · exact ⟨⟨List.replicate nparams true, ⟨2048, num_classes, true⟩⟩,
          by simp [initialise_model, resnet50, set_parameter_requires_grad]⟩
      · exact ⟨⟨List.replicate nparams false, ⟨2048, num_classes, true⟩⟩,
          by simp [initialise_model, resnet50, set_parameter_requires_grad,
            List.map_replicate]⟩
    · cases feature_extract
      · exact ⟨⟨List.replicate nparams true, ⟨1024, num_classes, true⟩⟩,
          by simp [initialise_model, densenet121, set_parameter_requires_grad]⟩
      · exact ⟨⟨List.replicate nparams false, ⟨1024, num_classes, true⟩⟩,
          by simp [initialise_model, densenet121, set_parameter_requires_grad,
            List.map_replicate]⟩

/-- C5 witness: the commented-out name vgg_pret exits; resnet_pret returns a
model. -/
theorem unrecognized_model_name_exits_witness :
    (initialise_model "vgg_pret" 7 true true 3 =
       InitResult.exitProcess
         "Invalid model name, choose between resnet_pret, densenet_pret.") ∧
    (∃ m, initialise_model "resnet_pret" 7 true true 3 = InitResult.model m) :=
  ⟨(unrecognized_model_name_exits "vgg_pret" 7 true true 3).1 (by decide) (by decide),
   (unrecognized_model_name_exits "resnet_pret" 7 true true 3).2 (Or.inl rfl)⟩

/-- C6: for both recognized names, `feature_extract = true` yields a model
whose backbone parameters are all frozen and whose final layer is a fresh
trainable linear layer with `out_features = num_classes`, while
`feature_extract = false` freezes nothing (all backbone flags keep the
pretrained default `true`), the fresh final layer again being trainable and
sized to `num_classes`. -/
theorem feature_extract_freezes_backbone_only (num_classes : ℕ) (use_pretrained : Bool)
    (nparams : ℕ) (model_name : String)
    (hname : model_name = "resnet_pret" ∨ model_name = "densenet_pret") :
    (∃ m, initialise_model model_name num_classes true use_pretrained nparams =
        InitResult.model m ∧
      (∀ b ∈ m.backboneParams, b = false) ∧
      m.head.out_features = num_classes ∧ m.head.requires_grad = true) ∧
    (∃ m, initialise_model model_name num_classes false use_pretrained nparams =
        InitResult.model m ∧
      (∀ b ∈ m.backboneParams, b = true) ∧
      m.head.out_features = num_classes ∧ m.head.requires_grad = true) := by
  rcases hname with rfl | rfl
  · constructor
    · refine ⟨⟨List.replicate nparams false, ⟨2048, num_classes, true⟩⟩,
        by simp [initialise_model, resnet50, set_parameter_requires_grad,
          List.map_replicate], ?_, rfl, rfl⟩
      intro b hb
      exact List.eq_of_mem_replicate hb
    · refine ⟨⟨List.replicate nparams true, ⟨2048, num_classes, true⟩⟩,
        by simp [initialise_model, resnet50, set_parameter_requires_grad], ?_, rfl, rfl⟩
      intro b hb
      exact List.eq_of_mem_replicate hb
  · constructor
    · refine ⟨⟨List.replicate nparams false, ⟨1024, num_classes, true⟩⟩,
        by simp [initialise_model, densenet121, set_parameter_requires_grad,
          List.map_replicate], ?_, rfl, rfl⟩
      intro b hb
      exact List.eq_of_mem_replicate hb
    · refine ⟨⟨List.replicate nparams true, ⟨1024, num_classes, true⟩⟩,
        by simp [initialise_model, densenet121, set_parameter_requires_grad], ?_, rfl, rfl⟩
      intro b hb
      exact List.eq_of_mem_replicate hb

/-- C6 witness at seven classes and a three-tensor backbone. -/
theorem feature_extract_freezes_backbone_only_witness :
    (∃ m, initialise_model "resnet_pret" 7 true true 3 = InitResult.model m ∧
      (∀ b ∈ m.backboneParams, b = false) ∧
      m.head.out_features = 7 ∧ m.head.requires_grad = true) ∧
    (∃ m, initialise_model "resnet_pret" 7 false true 3 = InitResult.model m ∧
      (∀ b ∈ m.backboneParams, b = true) ∧
      m.head.out_features = 7 ∧ m.head.requires_grad = true) :=
  feature_extract_freezes_backbone_only 7 true 3 "resnet_pret" (Or.inl rfl)

/-
`conf_report` (lines 162-198). A loader batch is modelled by its list of
(argmax prediction, true label) pairs: `model_cpu(data).argmax(dim=1)`
yields exactly one prediction per sample and `target.tolist()` one label.
`sklearn.metrics.confusion_matrix(y_true, y_pred)` is called without an
explicit label list, so its axis is the sorted set of values occurring in
`y_true` or `y_pred`; line 175 then builds a
`pd.DataFrame(matrix, index=classes, columns=classes)` over the seven fixed
class names, which raises a ValueError whenever the matrix is not 7 x 7,
before any figure is saved (`classification_report` with seven
`target_names` fails in the same situation).  Row normalisation of the
displayed first heatmap does not affect these observables and is omitted.
-/

/-- The seven fixed class names of line 172. -/
def classes : List String := ["akiec", "bcc", "bkl", "df", "mel", "nv", "vasc"]

/-- Sorted list of the distinct values occurring in `l`: models
`numpy.unique`, the implicit label axis of `sklearn` metrics. -/
def uniqueSorted (l : List ℕ) : List ℕ :=
  (List.range (l.foldr max 0 + 1)).filter (fun x => l.contains x)

/-- `sklearn.metrics.confusion_matrix(y_true, y_pred)`: entry (i, j) counts
the samples whose true label is the i-th and whose prediction is the j-th of
the sorted observed values. -/
def confusion_matrix (y_true y_pred : List ℕ) : List (List ℕ) :=
  let labels := uniqueSorted (y_true ++ y_pred)
  labels.map (fun i => labels.map (fun j =>
    (y_true.zip y_pred).countP (fun p => p.1 == i && p.2 == j)))

/-- The observable output of a successful `conf_report` call: the collected
sequences, the matrix, the file name passed to `plt.savefig`, and the class
names handed to `classification_report` for the printed report. -/
structure ConfReportOut where
  y_pred : List ℕ
  y_true : List ℕ
  cf_matrix : List (List ℕ)
  figure_filename : String
  report_target_names : List String
deriving DecidableEq

/-- `conf_report` (lines 162-198): collect one prediction and one label per
sample over all batches, compute the confusion matrix, render and save the
figure named after the model type, and print the per-class report; when the
observed values do not number exactly seven, the DataFrame construction of
line 175 raises before anything is saved. -/
def conf_report (loader : List (List (ℕ × ℕ))) (model_type : String) :
    Except String ConfReportOut :=
  let y_pred := (loader.map (fun batch => batch.map Prod.fst)).flatten
  let y_true := (loader.map (fun batch => batch.map Prod.snd)).flatten
  if (uniqueSorted (y_true ++ y_pred)).length = classes.length then
    Except.ok ⟨y_pred, y_true, confusion_matrix y_true y_pred,
      "Confusion_Matrix_" ++ model_type ++ ".png", classes⟩
  else
    Except.error "ValueError: shape of passed values does not match the implied indices"

theorem join_map_length (loader : List (List (ℕ × ℕ))) (f : ℕ × ℕ → ℕ) :
    ((loader.map (fun batch => batch.map f)).flatten).length = (loader.map List.length).sum := by
  induction loader with
  | nil => rfl
  | cons b l ih => simp [ih]

/-- C7 counterexample: on a loader holding one sample of class 0 the helper
raises a ValueError in the DataFrame construction (a 1 x 1 matrix against
seven class names) and saves no figure, so the claim fails for this loader. -/
theorem conf_report_single_sample_fails :
    conf_report [[(0, 0)]] "resnet_pret" =
      Except.error "ValueError: shape of passed values does not match the implied indices" := by
  rfl

/-- C7 amended: for every loader over which the collected predictions and
labels together take exactly seven distinct values, `conf_report` collects
exactly one prediction and one label per sample (two sequences of equal
length, the total sample count), computes the confusion matrix of the two
sequences over those seven values (displayed with the seven fixed class
names), saves the figure named after the model type and prints the report;
for any other loader the DataFrame construction raises instead. -/
theorem conf_report_collects_and_reports (loader : List (List (ℕ × ℕ))) (model_type : String)
    (h : (uniqueSorted ((loader.map (fun batch => batch.map Prod.snd)).flatten ++
            (loader.map (fun batch => batch.map Prod.fst)).flatten)).length = 7) :
    conf_report loader model_type = Except.ok
      ⟨(loader.map (fun batch => batch.map Prod.fst)).flatten,
       (loader.map (fun batch => batch.map Prod.snd)).flatten,
       confusion_matrix ((loader.map (fun batch => batch.map Prod.snd)).flatten)
         ((loader.map (fun batch => batch.map Prod.fst)).flatten),
       "Confusion_Matrix_" ++ model_type ++ ".png", classes⟩ ∧
    ((loader.map (fun batch => batch.map Prod.fst)).flatten).length =
      (loader.map List.length).sum ∧
    ((loader.map (fun batch => batch.map Prod.snd)).flatten).length =
      (loader.map List.length).sum := by
  refine ⟨?_, join_map_length loader Prod.fst, join_map_length loader Prod.snd⟩
  unfold conf_report
  rw [if_pos]
  exact h

/-- C7 witness at a single batch containing one sample of each class. -/
theorem conf_report_collects_and_reports_witness :
    conf_report [[(0, 0), (1, 1), (2, 2), (3, 3), (4, 4), (5, 5), (6, 6)]] "resnet_pret" =
      Except.ok
        ⟨(([[(0, 0), (1, 1), (2, 2), (3, 3), (4, 4), (5, 5), (6, 6)]]
             : List (List (ℕ × ℕ))).map (fun batch => batch.map Prod.fst)).flatten,
         (([[(0, 0), (1, 1), (2, 2), (3, 3), (4, 4), (5, 5), (6, 6)]]
             : List (List (ℕ × ℕ))).map (fun batch => batch.map Prod.snd)).flatten,
         confusion_matrix
           ((([[(0, 0), (1, 1), (2, 2), (3, 3), (4, 4), (5, 5), (6, 6)]]
                : List (List (ℕ × ℕ))).map (fun batch => batch.map Prod.snd)).flatten)
           ((([[(0, 0), (1, 1), (2, 2), (3, 3), (4, 4), (5, 5), (6, 6)]]
                : List (List (ℕ × ℕ))).map (fun batch => batch.map Prod.fst)).flatten),
         "Confusion_Matrix_" ++ "resnet_pret" ++ ".png", classes⟩ ∧
    ((([[(0, 0), (1, 1), (2, 2), (3, 3), (4, 4), (5, 5), (6, 6)]]
         : List (List (ℕ × ℕ))).map (fun batch => batch.map Prod.fst)).flatten).length =
      (([[(0, 0), (1, 1), (2, 2), (3, 3), (4, 4), (5, 5), (6, 6)]]
         : List (List (ℕ × ℕ))).map List.length).sum ∧
    ((([[(0, 0), (1, 1), (2, 2), (3, 3), (4, 4), (5, 5), (6, 6)]]
         : List (List (ℕ × ℕ))).map (fun batch => batch.map Prod.snd)).flatten).length =
      (([[(0, 0), (1, 1), (2, 2), (3, 3), (4, 4), (5, 5), (6, 6)]]
         : List (List (ℕ × ℕ))).map List.length).sum :=
  conf_report_collects_and_reports
    [[(0, 0), (1, 1), (2, 2), (3, 3), (4, 4), (5, 5), (6, 6)]] "resnet_pret" (by decide)

end Ham10000
